import Mathlib

/-!
Verification development for the pi_assistant Home Assistant integration.

The development shallowly embeds the three source modules:

- media_player.py : the PiAssistantMediaPlayer entity (identity derivation,
  state polling over HTTP, and the fixed playback command surface);
- config_flow.py : the setup and reconfigure configuration forms;
- voice_assistant.py : the VoiceAssistantPipeline orchestrator (stage-event
  callback, completion signalling and the terminal callback).

Network calls and the staged Home Assistant pipeline are external
collaborators; they are represented by their observable interface: the
command value a method dispatches, the outcome of one HTTP fetch, and the
list of stage events the staged pipeline delivers to the event callback
together with how the pipeline call itself returns.  Python exceptions are
modelled with Except.  A property declared in the sources with a getter and
no setter follows Python semantics: assigning to it raises AttributeError.
-/

namespace PiAssistant

/-! ### Media player: device identity (media_player.py)

generate_entity_id substitutes every maximal run of characters outside the
class a-z A-Z 0-9 with one underscore (the Python re.sub with pattern
of one-or-more non-alphanumerics) and lower-cases the result with str.lower;
device_id applies it to the hostname.  Characters are handled at the level
of Unicode code points; for the ASCII hostnames at issue the embedding of
str.lower as the basic-latin lowering below agrees with Python. -/

/-- Membership in the character class a-z A-Z 0-9 of the substitution
pattern in generate_entity_id. -/
def isAlnumChar (c : Char) : Bool :=
  decide ((65 ≤ c.toNat ∧ c.toNat ≤ 90) ∨ (97 ≤ c.toNat ∧ c.toNat ≤ 122) ∨
    (48 ≤ c.toNat ∧ c.toNat ≤ 57))

/-- Basic-latin lowering of one character, as str.lower acts on ASCII. -/
def asciiLower (c : Char) : Char :=
  if 65 ≤ c.toNat ∧ c.toNat ≤ 90 then Char.ofNat (c.toNat + 32) else c

/-- The substitution pass of generate_entity_id: each maximal run of
non-alphanumeric characters becomes one underscore.  The boolean argument
records whether the previous character belonged to such a run. -/
def subAux : Bool → List Char → List Char
  | _, [] => []
  | inRun, c :: cs =>
      if isAlnumChar c then c :: subAux false cs
      else if inRun then subAux true cs
      else '_' :: subAux true cs

/-- Embedding of PiAssistantMediaPlayer.generate_entity_id: the regex
substitution followed by lower-casing. -/
def generate_entity_id (s : String) : String :=
  ⟨(subAux false s.data).map asciiLower⟩

/-- Embedding of PiAssistantMediaPlayer.device_id: the entity id generated
from the hostname. -/
def device_id (hostname : String) : String :=
  generate_entity_id hostname

/-- Whether a character is the underscore separator (code point 95). -/
def sepB (c : Char) : Bool :=
  decide (c.toNat = 95)

/-- Helper for noDoubleSep: scans a list knowing the previous character. -/
def noDoubleSepAux : Char → List Char → Bool
  | _, [] => true
  | p, c :: cs => !(sepB p && sepB c) && noDoubleSepAux c cs

/-- No two adjacent characters of the list are both the separator; the
scan starts from a non-separator sentinel. -/
def noDoubleSep (l : List Char) : Bool :=
  noDoubleSepAux 'a' l

/-! ### Media player: commands (media_player.py)

Every playback-control method of PiAssistantMediaPlayer reduces to one call
of send_command with a fixed command name and argument mapping; the command
is dispatched over HTTP to the device.  The embedding returns the dispatched
command as a value. -/

/-- A JSON-like value appearing in a command argument mapping. -/
inductive CmdVal where
  | str (s : String)
  | num (q : ℚ)
deriving DecidableEq, Repr

/-- The command request that send_command posts to /api/command/{name} with
the given JSON argument mapping. -/
structure DeviceCommand where
  name : String
  args : List (String × CmdVal)
deriving DecidableEq, Repr

/-- Embedding of PiAssistantMediaPlayer.send_command: the command value the
method dispatches to the device. -/
def send_command (command : String) (args : List (String × CmdVal)) : DeviceCommand :=
  ⟨command, args⟩

/-- Embedding of PiAssistantMediaPlayer.set_volume_level: dispatches
set_volume with the given volume value, exactly as received. -/
def set_volume_level (volume : ℚ) : DeviceCommand :=
  send_command "set_volume" [("volume", CmdVal.num volume)]

/-- Embedding of PiAssistantMediaPlayer.media_pause. -/
def media_pause : DeviceCommand := send_command "media_pause" []

/-- Embedding of PiAssistantMediaPlayer.media_play. -/
def media_play : DeviceCommand := send_command "media_play" []

/-- Embedding of PiAssistantMediaPlayer.media_stop. -/
def media_stop : DeviceCommand := send_command "media_stop" []

/-- Embedding of PiAssistantMediaPlayer.mute_volume: the source ignores the
mute argument and always dispatches volume_mute with an empty mapping. -/
def mute_volume (mute : Bool) : DeviceCommand := send_command "volume_mute" []

/-- The volume value carried by a command, when it has one. -/
def dispatchedVolume (c : DeviceCommand) : Option ℚ :=
  match c.args.find? (fun p => p.1 == "volume") with
  | some (_, CmdVal.num q) => some q
  | _ => none

/-! ### Media player: state polling (media_player.py)

update_states issues requests.get with a one second timeout, decodes the
JSON body and copies each field onto the entity; the only exception type it
catches is the builtin TimeoutError, for which it sets the state to the
sentinel string unavailable.  async_update wraps the call and swallows (only
logs) every exception. -/

/-- The JSON body returned by GET /api/state.  The upstream key repeat is
spelled repeat_mode here because repeat is a Lean keyword. -/
structure StateJson where
  state : String
  is_volume_muted : Bool
  media_duration : ℚ
  media_content_type : String
  media_position : ℚ
  media_position_updated_at : String
  repeat_mode : String
  shuffle : Bool
  source : String
  volume_level : ℚ
  volume_step : ℚ
deriving DecidableEq, Repr

/-- The mutable attributes of the entity touched by update_states; none is
the initial, never-fetched value of an attribute. -/
structure PlayerAttrs where
  state : Option String := none
  is_volume_muted : Option Bool := none
  media_duration : Option ℚ := none
  media_content_type : Option String := none
  media_position : Option ℚ := none
  media_position_updated_at : Option String := none
  repeat_mode : Option String := none
  shuffle : Option Bool := none
  source : Option String := none
  volume_level : Option ℚ := none
  volume_step : Option ℚ := none
deriving DecidableEq, Repr

/-- The initial attribute record of a freshly created entity. -/
def initAttrs : PlayerAttrs := {}

/-- Exception classes that the state fetch can raise.  timeoutError is the
builtin TimeoutError class named in the except clause of update_states;
connectionError stands for a transport-level connection failure, and
requestException for any other exception from the request or JSON decode. -/
inductive TransportExn where
  | timeoutError
  | connectionError
  | requestException
deriving DecidableEq, Repr

/-- Outcome of one GET /api/state request: a decoded body, or a raised
exception. -/
inductive FetchOutcome where
  | ok (body : StateJson)
  | raise (e : TransportExn)
deriving DecidableEq, Repr

/-- Embedding of PiAssistantMediaPlayer.update_states.  On a decoded body
every field is copied onto the entity.  The except clause catches exactly
TimeoutError and sets state to unavailable; any other exception escapes to
the caller. -/
def update_states (d : PlayerAttrs) (r : FetchOutcome) : Except TransportExn PlayerAttrs :=
  match r with
  | .ok js =>
      .ok { d with
        state := some js.state
        is_volume_muted := some js.is_volume_muted
        media_duration := some js.media_duration
        media_content_type := some js.media_content_type
        media_position := some js.media_position
        media_position_updated_at := some js.media_position_updated_at
        repeat_mode := some js.repeat_mode
        shuffle := some js.shuffle
        source := some js.source
        volume_level := some js.volume_level
        volume_step := some js.volume_step }
  | .raise .timeoutError => .ok { d with state := some "unavailable" }
  | .raise .connectionError => .error .connectionError
  | .raise .requestException => .error .requestException

/-- Embedding of PiAssistantMediaPlayer.async_update: runs update_states and
catches every exception, logging it and leaving the attributes unchanged. -/
def async_update (d : PlayerAttrs) (r : FetchOutcome) : PlayerAttrs :=
  match update_states d r with
  | .ok d2 => d2
  | .error _ => d

/-! ### Config flow (config_flow.py) -/

/-- One stored configuration entry: its registry id and the hostname it
captured. -/
structure ConfigEntry where
  entry_id : String
  hostname : String
deriving DecidableEq, Repr

/-- The observable result of one config-flow step. -/
inductive FlowResult where
  | showForm (step_id : String) (default_hostname : String)
  | createEntry (title : String) (hostname : String)
  | abortReason (reason : String)
deriving DecidableEq, Repr

/-- Embedding of PiAssistantConfigFlow.async_step_user.  With no input the
one-field form (default hostname raspberrypi) is shown.  With input, the
abort-entries-match guard raises AbortFlow when an existing entry has the
same hostname; the broad except clause converts that into showing the form
again, so no entry is created.  Otherwise the entry is created. -/
def async_step_user (entries : List ConfigEntry) (user_input : Option String) :
    FlowResult :=
  match user_input with
  | none => .showForm "user" "raspberrypi"
  | some h =>
      if entries.any (fun e => e.hostname == h) then
        .showForm "user" "raspberrypi"
      else
        .createEntry h h

/-- Embedding of PiAssistantConfigFlow.async_step_reconfigure.  With no
input the form is shown pre-filled with the stored hostname of the entry
being reconfigured (raspberrypi when absent).  With input, the entry is
updated with the submitted hostname and the flow aborts with
reconfigure_successful; the source performs no duplicate-hostname check on
this path.  Returns the flow result together with the updated entry list. -/
def async_step_reconfigure (entries : List ConfigEntry) (entry_id : String)
    (user_input : Option String) : FlowResult × List ConfigEntry :=
  match user_input with
  | none =>
      (.showForm "reconfigure"
        (((entries.find? (fun e => e.entry_id == entry_id)).map
            (fun e => e.hostname)).getD "raspberrypi"),
       entries)
  | some h =>
      (.abortReason "reconfigure_successful",
       entries.map (fun e => if e.entry_id == entry_id then { e with hostname := h } else e))

/-! ### Voice assistant pipeline (voice_assistant.py)

VoiceAssistantPipeline subscribes its bound method event_callback (spelled
with a leading underscore in the source) to the staged Home Assistant
pipeline.  The callback translates every stage event, forwards it through
the handle_event callback, and on error events sets the completion event and
invokes handle_finished.  run_pipeline awaits the staged pipeline, then
awaits the tts_done asyncio event, and invokes handle_finished in a finally
clause; PipelineNotFound, WakeWordDetectionAborted and WakeWordDetectionError
are the only exception classes it catches.

The class declares is_running as a read-only property (a getter over the
started and stop_requested attributes and no setter), so the statement
self.is_running = True executed for the STT-start event raises
AttributeError under Python semantics; the exception escapes the callback,
aborts the staged pipeline call, and is not among the classes caught by
run_pipeline.

The staged pipeline itself is external: one run is represented by the list
of stage events it delivers to the callback, in order, together with how the
pipeline call returns control (normal return, or one of the exception
classes run_pipeline distinguishes).  When the callback raises, the events
after the raising one are not delivered. -/

/-- The PipelineEventType values the callback can pass to handle_event. -/
inductive PEType where
  | run_start
  | run_end
  | wake_word_start
  | wake_word_end
  | stt_start
  | stt_end
  | intent_start
  | intent_end
  | tts_start
  | tts_end
  | error
deriving DecidableEq, Repr

/-- The payload dictionary passed to handle_event (string keys and values);
none models the Python value None, some [] the empty dict. -/
abbrev Payload := List (String × String)

/-- One stage event delivered by the staged pipeline, carrying exactly the
data fields the callback reads: the recognized text for STT end, the
conversation id (possibly None) for intent end, the input text for TTS
start, the synthesized URL (none models an empty tts_output) for TTS end,
the truthiness of wake_word_output for wake-word end, and the code and
message of an error event. -/
inductive PipelineEvent where
  | run_start
  | run_end
  | wake_word_start
  | wake_word_end (wake_word_output : Bool)
  | stt_start
  | stt_end (text : String)
  | intent_start
  | intent_end (conversation_id : Option String)
  | tts_start (tts_input : String)
  | tts_end (tts_output : Option String)
  | error (code message : String)
deriving DecidableEq, Repr

/-- The observable state of one VoiceAssistantPipeline run: the class
attributes started and stop_requested (never written in the source), the
tts_done asyncio event, the ordered list of handle_event invocations, the
number of handle_finished invocations, and the URLs dispatched for playback
through the media-player entity. -/
structure PipelineState where
  started : Bool := false
  stop_requested : Bool := false
  tts_done : Bool := false
  sent : List (PEType × Option Payload) := []
  finished : Nat := 0
  plays : List String := []
deriving DecidableEq, Repr

/-- The state of a freshly constructed pipeline. -/
def initState : PipelineState := {}

/-- Embedding of the is_running property: started and not stop_requested. -/
def is_running (st : PipelineState) : Bool :=
  st.started && !st.stop_requested

/-- Exception raised from inside the event callback. -/
inductive PyExn where
  | attributeError
deriving DecidableEq, Repr

/-- Record one handle_event invocation. -/
def emit (st : PipelineState) (t : PEType) (d : Option Payload) : PipelineState :=
  { st with sent := st.sent ++ [(t, d)] }

/-- Set the tts_done asyncio event. -/
def setTtsDone (st : PipelineState) : PipelineState :=
  { st with tts_done := true }

/-- Record one handle_finished invocation. -/
def finishOnce (st : PipelineState) : PipelineState :=
  { st with finished := st.finished + 1 }

/-- Embedding of VoiceAssistantPipeline event_callback (one stage event).
Every branch ends by forwarding handle_event with the translated event type
and payload; the error branches (an upstream error event, or wake-word end
without a detection, which is rewritten into an error event with code
no_wake_word) additionally set tts_done and invoke handle_finished.  A TTS
end with output dispatches the synthesized URL for playback and forwards a
None payload; a TTS end without output sets tts_done and forwards an empty
dict.  The STT-start branch assigns to the read-only property is_running and
therefore raises AttributeError before reaching handle_event. -/
def event_callback (st : PipelineState) (ev : PipelineEvent) :
    Except PyExn PipelineState :=
  match ev with
  | .run_start => .ok (emit st .run_start none)
  | .run_end => .ok (emit st .run_end none)
  | .wake_word_start => .ok (emit st .wake_word_start none)
  | .wake_word_end true => .ok (emit st .wake_word_end none)
  | .wake_word_end false =>
      .ok (finishOnce (setTtsDone (emit st .error
        (some [("code", "no_wake_word"), ("message", "No wake word detected")]))))
  | .stt_start => .error .attributeError
  | .stt_end text => .ok (emit st .stt_end (some [("text", text)]))
  | .intent_start => .ok (emit st .intent_start none)
  | .intent_end cid => .ok (emit st .intent_end (some [("conversation_id", cid.getD "")]))
  | .tts_start tts_input => .ok (emit st .tts_start (some [("text", tts_input)]))
  | .tts_end (some url) =>
      .ok (emit { st with plays := st.plays ++ [url] } .tts_end none)
  | .tts_end none => .ok (emit (setTtsDone st) .tts_end (some []))
  | .error code message =>
      .ok (finishOnce (setTtsDone (emit st .error
        (some [("code", code), ("message", message)]))))

/-- Deliver a list of stage events to the callback in order, stopping at the
first exception; returns the state reached and the exception, if any. -/
def processEvents (st : PipelineState) :
    List PipelineEvent → PipelineState × Option PyExn
  | [] => (st, none)
  | ev :: rest =>
      match event_callback st ev with
      | .ok st2 => processEvents st2 rest
      | .error e => (st, some e)

/-- How the awaited staged-pipeline call returns control to run_pipeline
when the callback itself did not raise: normal return, or one of the three
exception classes run_pipeline catches, or any other unexpected exception. -/
inductive UpstreamResult where
  | normal
  | notFound
  | wwAborted
  | wwError (code message : String)
  | unexpected
deriving DecidableEq, Repr

/-- One run of the staged pipeline as observed by run_pipeline: the stage
events delivered to the callback and how the pipeline call returns. -/
structure UpstreamRun where
  events : List PipelineEvent
  result : UpstreamResult
deriving DecidableEq, Repr

/-- How one invocation of run_pipeline ends: a normal return, an exception
propagated to its caller (in both cases the finally clause has run), or
blocked forever awaiting the tts_done event (the finally clause never
runs). -/
inductive RunOutcome where
  | finishedRun (st : PipelineState)
  | raised (st : PipelineState)
  | hung (st : PipelineState)
deriving DecidableEq, Repr

/-- Embedding of VoiceAssistantPipeline.run_pipeline.  The staged pipeline
delivers its events to the callback; an exception raised by the callback
aborts the pipeline call and, being an AttributeError, is caught by none of
the except clauses, so after the finally clause it propagates.  On a normal
return the run awaits tts_done: it returns only if some processed event has
set it, and otherwise blocks forever.  PipelineNotFound and
WakeWordDetectionError forward an error event through handle_event directly
(not through the callback) and return; WakeWordDetectionAborted returns
silently; an unexpected exception propagates.  Every path that ends runs the
finally clause, which invokes handle_finished. -/
def run_pipeline (u : UpstreamRun) : RunOutcome :=
  match processEvents initState u.events with
  | (st, some _) => .raised (finishOnce st)
  | (st, none) =>
      match u.result with
      | .normal =>
          if st.tts_done then .finishedRun (finishOnce st) else .hung st
      | .notFound =>
          .finishedRun (finishOnce (emit st .error
            (some [("code", "pipeline not found"),
                   ("message", "Selected pipeline not found")])))
      | .wwAborted => .finishedRun (finishOnce st)
      | .wwError code message =>
          .finishedRun (finishOnce (emit st .error
            (some [("code", code), ("message", message)])))
      | .unexpected => .raised (finishOnce st)

/-- The pipeline state carried by a run outcome. -/
def outcomeState : RunOutcome → PipelineState
  | .finishedRun st => st
  | .raised st => st
  | .hung st => st

/-- Number of handle_finished invocations over the whole run. -/
def outcomeFinishedCount (o : RunOutcome) : Nat :=
  (outcomeState o).finished

/-- Whether the tts_done event was set by the end of the run. -/
def outcomeTtsDone (o : RunOutcome) : Bool :=
  (outcomeState o).tts_done

/-- Whether run_pipeline returned normally. -/
def isFinishedRun : RunOutcome → Bool
  | .finishedRun _ => true
  | _ => false

/-- Whether the run ended at all (normal return or propagated exception),
as opposed to blocking forever on the tts_done wait. -/
def isTerminating : RunOutcome → Bool
  | .finishedRun _ => true
  | .raised _ => true
  | .hung _ => false

/-- The synthesized URL a stage event dispatches for playback, if any. -/
def ttsUrlOf : PipelineEvent → Option String
  | .tts_end (some url) => some url
  | _ => none

/-- The event types forwarded with a payload that is not None; these are the
events the public protocol surfaces to the caller. -/
def publicEvents (l : List (PEType × Option Payload)) : List PEType :=
  l.filterMap (fun p => match p.2 with | none => none | some _ => some p.1)

/-- One successful callback step appends exactly the playback dispatch of
its event, preserves a set tts_done flag, and only appends to the
handle_event log. -/
theorem event_callback_ok_state (st : PipelineState) (ev : PipelineEvent)
    (st2 : PipelineState) (h : event_callback st ev = Except.ok st2) :
    st2.plays = st.plays ++ (ttsUrlOf ev).toList ∧
    (st.tts_done = true → st2.tts_done = true) ∧
    (∀ p, p ∈ st.sent → p ∈ st2.sent) := by
  cases ev with
  | wake_word_end b =>
      cases b <;>
        · simp only [event_callback, Except.ok.injEq] at h
          subst h
          simp only [emit, setTtsDone, finishOnce, ttsUrlOf, Option.toList,
            List.mem_append]
          refine ⟨by simp, by simp, ?_⟩
          tauto
  | tts_end o =>
      cases o <;>
        · simp only [event_callback, Except.ok.injEq] at h
          subst h
          simp only [emit, setTtsDone, ttsUrlOf, Option.toList, List.mem_append]
          refine ⟨by simp, by simp, ?_⟩
          tauto
  | stt_start =>
      simp only [event_callback] at h
      exact Except.noConfusion h
  | _ =>
      simp only [event_callback, Except.ok.injEq] at h
      subst h
      simp only [emit, setTtsDone, finishOnce, ttsUrlOf, Option.toList,
        List.mem_append]
      refine ⟨by simp, by simp, ?_⟩
      tauto

/-- Processing a list of events preserves recorded playback dispatches, a
set tts_done flag, and recorded handle_event invocations. -/
theorem processEvents_mono (evs : List PipelineEvent) (st : PipelineState) :
    (∀ u, u ∈ st.plays → u ∈ (processEvents st evs).1.plays) ∧
    (st.tts_done = true → (processEvents st evs).1.tts_done = true) ∧
    (∀ p, p ∈ st.sent → p ∈ (processEvents st evs).1.sent) := by
  induction evs generalizing st with
  | nil => simp [processEvents]
  | cons ev rest ih =>
      cases h : event_callback st ev with
      | ok st2 =>
          obtain ⟨hp, ht, hs⟩ := event_callback_ok_state st ev st2 h
          simp only [processEvents, h]
          refine ⟨fun u hu => ?_, fun htd => ?_, fun p hp2 => ?_⟩
          · exact (ih st2).1 u (by simp [hp, hu])
          · exact (ih st2).2.1 (ht htd)
          · exact (ih st2).2.2 p (hs p hp2)
      | error e => simp [processEvents, h]

/-- When every event is processed without an exception, the recorded
playback dispatches are exactly the synthesized URLs of the non-empty
TTS-end events, in order. -/
theorem processEvents_plays (evs : List PipelineEvent) (st : PipelineState)
    (h : (processEvents st evs).2 = none) :
    (processEvents st evs).1.plays = st.plays ++ evs.filterMap ttsUrlOf := by
  induction evs generalizing st with
  | nil => simp [processEvents]
  | cons ev rest ih =>
      cases hcb : event_callback st ev with
      | ok st2 =>
          have hp := (event_callback_ok_state st ev st2 hcb).1
          simp only [processEvents, hcb] at h ⊢
          rw [ih st2 h, hp, List.filterMap_cons]
          cases hu : ttsUrlOf ev <;> simp [List.append_assoc]
      | error e => simp [processEvents, hcb] at h

/-- An empty-synthesis TTS-end event that gets processed leaves tts_done
set at the end of processing. -/
theorem processEvents_tts_done_of_mem (evs : List PipelineEvent)
    (st : PipelineState) (hclean : (processEvents st evs).2 = none)
    (hmem : PipelineEvent.tts_end none ∈ evs) :
    (processEvents st evs).1.tts_done = true := by
  induction evs generalizing st with
  | nil => simp at hmem
  | cons ev rest ih =>
      cases hcb : event_callback st ev with
      | ok st2 =>
          simp only [processEvents, hcb] at hclean ⊢
          rcases List.mem_cons.mp hmem with hev | hrest
          · subst hev
            simp only [event_callback, Except.ok.injEq] at hcb
            have : st2.tts_done = true := by
              rw [← hcb]; simp [emit, setTtsDone]
            exact (processEvents_mono rest st2).2.1 this
          · exact ih st2 hclean hrest
      | error e =>
          exfalso
          rcases List.mem_cons.mp hmem with hev | hrest
          · subst hev; simp [event_callback] at hcb
          · simp [processEvents, hcb] at hclean

/-- An empty-synthesis TTS-end event that gets processed leaves a recorded
handle_event invocation with the TTS-end type and an empty dict payload. -/
theorem processEvents_sent_of_mem (evs : List PipelineEvent)
    (st : PipelineState) (hclean : (processEvents st evs).2 = none)
    (hmem : PipelineEvent.tts_end none ∈ evs) :
    (PEType.tts_end, some ([] : Payload)) ∈ (processEvents st evs).1.sent := by
  induction evs generalizing st with
  | nil => simp at hmem
  | cons ev rest ih =>
      cases hcb : event_callback st ev with
      | ok st2 =>
          simp only [processEvents, hcb] at hclean ⊢
          rcases List.mem_cons.mp hmem with hev | hrest
          · subst hev
            simp only [event_callback, Except.ok.injEq] at hcb
            have : (PEType.tts_end, some ([] : Payload)) ∈ st2.sent := by
              rw [← hcb]; simp [emit, setTtsDone]
            exact (processEvents_mono rest st2).2.2 _ this
          · exact ih st2 hclean hrest
      | error e =>
          exfalso
          rcases List.mem_cons.mp hmem with hev | hrest
          · subst hev; simp [event_callback] at hcb
          · simp [processEvents, hcb] at hclean

/-- Whenever a run ends, the finally clause adds exactly one
handle_finished invocation on top of the ones the callback performed. -/
theorem run_pipeline_finished_count (u : UpstreamRun)
    (h : isTerminating (run_pipeline u) = true) :
    outcomeFinishedCount (run_pipeline u) =
      (processEvents initState u.events).1.finished + 1 := by
  unfold run_pipeline at h ⊢
  rcases hp : processEvents initState u.events with ⟨st, exn⟩
  rw [hp] at h
  cases exn with
  | some e => simp [outcomeFinishedCount, outcomeState, finishOnce]
  | none =>
      cases hr : u.result with
      | normal =>
          rw [hr] at h
          cases htd : st.tts_done with
          | true => simp [htd, outcomeFinishedCount, outcomeState, finishOnce]
          | false =>
              simp [htd, isTerminating] at h
      | notFound =>
          simp [outcomeFinishedCount, outcomeState, finishOnce, emit]
      | wwAborted => simp [outcomeFinishedCount, outcomeState, finishOnce]
      | wwError c m =>
          simp [outcomeFinishedCount, outcomeState, finishOnce, emit]
      | unexpected => simp [outcomeFinishedCount, outcomeState, finishOnce]

/-! ### Claims C1, C2, C3, C4, C5 -/

/-- C1 counterexample: a run in which the staged pipeline delivers one
internal error event and then returns normally invokes handle_finished
twice: once from the error branch of the event callback and once from the
finally clause of run_pipeline. -/
theorem C1_counterexample :
    outcomeFinishedCount
      (run_pipeline ⟨[PipelineEvent.error "stt-no-text-recognized"
        "No text recognized"], UpstreamResult.normal⟩) = 2 := by
  decide

/-- C1 amended: whenever a run ends, on any branch, handle_finished is
invoked at least once; it is invoked exactly once plus one additional time
for every error stage event the callback handled (an upstream error event or
a wake-word end without detection), because the callback error branch and
the finally clause of run_pipeline both invoke it.  In particular runs with
no handled error event invoke it exactly once, and exactly-once delivery on
error-event runs would require the caller-supplied handle_finished to be
idempotent. -/
theorem C1_amended (u : UpstreamRun)
    (h : isTerminating (run_pipeline u) = true) :
    outcomeFinishedCount (run_pipeline u) =
      (processEvents initState u.events).1.finished + 1 ∧
    1 ≤ outcomeFinishedCount (run_pipeline u) := by
  have hc := run_pipeline_finished_count u h
  exact ⟨hc, by omega⟩

/-- C1 witness: a wake-word-aborted run ends and invokes handle_finished
exactly once. -/
theorem C1_witness :
    isTerminating (run_pipeline ⟨[], UpstreamResult.wwAborted⟩) = true ∧
    (outcomeFinishedCount (run_pipeline ⟨[], UpstreamResult.wwAborted⟩) =
      (processEvents initState ([] : List PipelineEvent)).1.finished + 1 ∧
     1 ≤ outcomeFinishedCount (run_pipeline ⟨[], UpstreamResult.wwAborted⟩)) := by
  exact ⟨by decide, C1_amended ⟨[], UpstreamResult.wwAborted⟩ (by decide)⟩

/-- C2: on a run whose events are all processed without an exception and
whose TTS stage ends with a non-empty output, the synthesized URL is
dispatched for playback during event processing, hence before the run can
terminate; and a run_pipeline invocation that returns normally does so only
after the tts_done signal has been observed. -/
theorem C2_theorem (events : List PipelineEvent) (url : String)
    (hclean : (processEvents initState events).2 = none)
    (hmem : PipelineEvent.tts_end (some url) ∈ events) :
    url ∈ (processEvents initState events).1.plays ∧
    (isFinishedRun (run_pipeline ⟨events, UpstreamResult.normal⟩) = true →
      outcomeTtsDone (run_pipeline ⟨events, UpstreamResult.normal⟩) = true) := by
  constructor
  · rw [processEvents_plays events initState hclean]
    exact List.mem_append_right _ (List.mem_filterMap.mpr ⟨_, hmem, rfl⟩)
  · intro hfin
    unfold run_pipeline at hfin ⊢
    dsimp only at hfin ⊢
    rcases hp : processEvents initState events with ⟨st, exn⟩
    cases exn with
    | some e =>
        rw [hp] at hfin
        simp [isFinishedRun] at hfin
    | none =>
        cases htd : st.tts_done with
        | true => simp [htd, outcomeTtsDone, outcomeState, finishOnce]
        | false =>
            rw [hp] at hfin
            simp [htd, isFinishedRun] at hfin

/-- C2 witness: a concrete run that dispatches its synthesized URL and, as
it happens, also terminates, with the tts_done signal observed. -/
theorem C2_witness :
    (processEvents initState [PipelineEvent.tts_end (some "http://pi/tts.mp3"),
      PipelineEvent.error "timeout" "Timeout running pipeline"]).2 = none ∧
    PipelineEvent.tts_end (some "http://pi/tts.mp3") ∈
      [PipelineEvent.tts_end (some "http://pi/tts.mp3"),
       PipelineEvent.error "timeout" "Timeout running pipeline"] ∧
    ("http://pi/tts.mp3" ∈ (processEvents initState
        [PipelineEvent.tts_end (some "http://pi/tts.mp3"),
         PipelineEvent.error "timeout" "Timeout running pipeline"]).1.plays ∧
      (isFinishedRun (run_pipeline ⟨[PipelineEvent.tts_end (some "http://pi/tts.mp3"),
          PipelineEvent.error "timeout" "Timeout running pipeline"],
          UpstreamResult.normal⟩) = true →
        outcomeTtsDone (run_pipeline ⟨[PipelineEvent.tts_end (some "http://pi/tts.mp3"),
          PipelineEvent.error "timeout" "Timeout running pipeline"],
          UpstreamResult.normal⟩) = true)) := by
  refine ⟨by decide, by decide, C2_theorem _ _ (by decide) (by decide)⟩

/-- C3 counterexample: when the TTS stage ends with an empty output the
callback does invoke handle_event for that stage event, with the TTS-end
event type and an empty dict payload, which is not None; so an event is
emitted to the caller for that stage event, contrary to the claim. -/
theorem C3_counterexample :
    (processEvents initState [PipelineEvent.tts_end none]).1.sent =
      [(PEType.tts_end, some ([] : Payload))] ∧
    (some ([] : Payload)).isSome = true := by
  exact ⟨by decide, by decide⟩

/-- C3 amended: on a run whose events are all processed without an
exception and whose TTS stage ends with an empty output, no playback
command is dispatched for that event (the dispatched URLs are exactly those
of non-empty TTS-end events), the completion signal tts_done is set, the
run terminates with the finally clause firing the terminal callback; but
handle_event is invoked for that stage event, with the TTS-end type and an
empty (non-None) payload. -/
theorem C3_amended (evs : List PipelineEvent)
    (hclean : (processEvents initState evs).2 = none)
    (hmem : PipelineEvent.tts_end none ∈ evs) :
    (PEType.tts_end, some ([] : Payload)) ∈ (processEvents initState evs).1.sent ∧
    (processEvents initState evs).1.tts_done = true ∧
    (processEvents initState evs).1.plays = evs.filterMap ttsUrlOf ∧
    isTerminating (run_pipeline ⟨evs, UpstreamResult.normal⟩) = true ∧
    outcomeFinishedCount (run_pipeline ⟨evs, UpstreamResult.normal⟩) =
      (processEvents initState evs).1.finished + 1 := by
  have htd := processEvents_tts_done_of_mem evs initState hclean hmem
  have hterm : isTerminating (run_pipeline ⟨evs, UpstreamResult.normal⟩) = true := by
    have hclean2 := hclean
    have htd2 := htd
    unfold run_pipeline
    dsimp only
    rcases hp : processEvents initState evs with ⟨st, exn⟩
    rw [hp] at hclean2 htd2
    have htd3 : st.tts_done = true := htd2
    cases exn with
    | some e => simp at hclean2
    | none => simp [htd3, isTerminating]
  refine ⟨processEvents_sent_of_mem evs initState hclean hmem, htd, ?_, hterm, ?_⟩
  · have := processEvents_plays evs initState hclean
    simpa [initState] using this
  · exact run_pipeline_finished_count _ hterm

/-- C3 witness: the amended theorem applied to the run consisting of one
empty-synthesis TTS-end event. -/
theorem C3_witness :
    (processEvents initState [PipelineEvent.tts_end none]).2 = none ∧
    ((PEType.tts_end, some ([] : Payload)) ∈
        (processEvents initState [PipelineEvent.tts_end none]).1.sent ∧
      (processEvents initState [PipelineEvent.tts_end none]).1.tts_done = true ∧
      (processEvents initState [PipelineEvent.tts_end none]).1.plays =
        [PipelineEvent.tts_end none].filterMap ttsUrlOf ∧
      isTerminating (run_pipeline ⟨[PipelineEvent.tts_end none],
        UpstreamResult.normal⟩) = true ∧
      outcomeFinishedCount (run_pipeline ⟨[PipelineEvent.tts_end none],
          UpstreamResult.normal⟩) =
        (processEvents initState [PipelineEvent.tts_end none]).1.finished + 1) := by
  exact ⟨by decide, C3_amended [PipelineEvent.tts_end none] (by decide) (by decide)⟩

/-- The stage events of a run that progresses through the wake word, STT,
intent and TTS stages, as the staged pipeline emits them. -/
def fullRunTrace : List PipelineEvent :=
  [PipelineEvent.run_start,
   PipelineEvent.wake_word_start,
   PipelineEvent.wake_word_end true,
   PipelineEvent.stt_start,
   PipelineEvent.stt_end "turn on the light",
   PipelineEvent.intent_start,
   PipelineEvent.intent_end (some "conversation-1"),
   PipelineEvent.tts_start "Turned on the light",
   PipelineEvent.tts_end (some "http://pi/tts.mp3")]

/-- C4: on the event trace of a run progressing through all four stages the
callback raises AttributeError at the STT-start event (the assignment to
the read-only property is_running), the pipeline call aborts and the
exception propagates out of run_pipeline; no event with a non-None payload
was forwarded, so the caller observes none of the claimed public events
STT_TEXT, INTENT_RESULT, TTS_TEXT, and the terminal callback fires once
from the finally clause. -/
theorem C4_theorem :
    run_pipeline ⟨fullRunTrace, UpstreamResult.normal⟩ =
      .raised { started := false, stop_requested := false, tts_done := false,
                sent := [(PEType.run_start, none), (PEType.wake_word_start, none),
                         (PEType.wake_word_end, none)],
                finished := 1, plays := [] } ∧
    publicEvents (outcomeState
      (run_pipeline ⟨fullRunTrace, UpstreamResult.normal⟩)).sent = [] ∧
    outcomeFinishedCount (run_pipeline ⟨fullRunTrace, UpstreamResult.normal⟩) = 1 := by
  refine ⟨by decide, by decide, by decide⟩

/-- C5: delivering an STT-started stage event makes the handler raise
AttributeError (the source assigns True to is_running, a property declared
with a getter only), the state is unchanged, no handle_event invocation is
recorded for it, and the running flag is false afterwards since the started
attribute is never written. -/
theorem C5_theorem :
    processEvents initState [PipelineEvent.stt_start] =
      (initState, some PyExn.attributeError) ∧
    is_running initState = false := by
  exact ⟨by decide, by decide⟩

/-! ### Device identity: lemmas and claim C6 -/

/-- A nat in the basic-latin range is a valid scalar value, and Char.ofNat
then round-trips through toNat. -/
theorem toNat_charOfNat_of_lt (n : Nat) (h : n < 55296) :
    (Char.ofNat n).toNat = n := by
  have hv : Nat.isValidChar n := Or.inl h
  unfold Char.ofNat
  rw [dif_pos hv]
  rfl

/-- On an upper-case basic-latin character, asciiLower adds 32 to the code
point. -/
theorem toNat_asciiLower_upper (c : Char)
    (h : 65 ≤ c.toNat ∧ c.toNat ≤ 90) :
    (asciiLower c).toNat = c.toNat + 32 := by
  unfold asciiLower
  rw [if_pos h]
  exact toNat_charOfNat_of_lt _ (by omega)

/-- Outside the upper-case range asciiLower is the identity. -/
theorem asciiLower_of_not_upper (c : Char)
    (h : ¬(65 ≤ c.toNat ∧ c.toNat ≤ 90)) :
    asciiLower c = c := by
  unfold asciiLower
  rw [if_neg h]

/-- Lowering is idempotent. -/
theorem asciiLower_idem (c : Char) :
    asciiLower (asciiLower c) = asciiLower c := by
  by_cases h : 65 ≤ c.toNat ∧ c.toNat ≤ 90
  · have h2 := toNat_asciiLower_upper c h
    exact asciiLower_of_not_upper _ (by omega)
  · simp [asciiLower_of_not_upper c h]

/-- Lowering preserves membership in the alphanumeric class. -/
theorem isAlnumChar_asciiLower (c : Char) :
    isAlnumChar (asciiLower c) = isAlnumChar c := by
  by_cases h : 65 ≤ c.toNat ∧ c.toNat ≤ 90
  · have h2 := toNat_asciiLower_upper c h
    unfold isAlnumChar
    rw [h2]
    exact decide_eq_decide.mpr (by omega)
  · rw [asciiLower_of_not_upper c h]

/-- Lowering preserves being or not being the separator. -/
theorem sepB_asciiLower (c : Char) :
    sepB (asciiLower c) = sepB c := by
  by_cases h : 65 ≤ c.toNat ∧ c.toNat ≤ 90
  · have h2 := toNat_asciiLower_upper c h
    unfold sepB
    rw [h2]
    exact decide_eq_decide.mpr (by omega)
  · rw [asciiLower_of_not_upper c h]

/-- An alphanumeric character is not the separator. -/
theorem sepB_of_alnum (c : Char) (h : isAlnumChar c = true) :
    sepB c = false := by
  unfold isAlnumChar at h
  unfold sepB
  rw [decide_eq_true_eq] at h
  simp only [decide_eq_false_iff_not]
  omega

/-- The substitution pass commutes with lowering the input. -/
theorem subAux_map_asciiLower (l : List Char) :
    ∀ b, subAux b (l.map asciiLower) = (subAux b l).map asciiLower := by
  induction l with
  | nil => intro b; simp [subAux]
  | cons c cs ih =>
      intro b
      simp only [List.map_cons, subAux, isAlnumChar_asciiLower]
      cases h : isAlnumChar c with
      | true => simp [h, ih]
      | false =>
          cases b with
          | true => simp [h, ih]
          | false =>
              have hl : asciiLower '_' = '_' := by decide
              simp [h, ih, hl]

/-- The substitution pass is idempotent. -/
theorem subAux_idem (l : List Char) :
    ∀ b, subAux b (subAux b l) = subAux b l := by
  induction l with
  | nil => intro b; simp [subAux]
  | cons c cs ih =>
      intro b
      cases h : isAlnumChar c with
      | true => simp [subAux, h, ih]
      | false =>
          cases b with
          | true => simp [subAux, h, ih]
          | false =>
              have hu : isAlnumChar '_' = false := by decide
              simp [subAux, h, hu, ih]

/-- Pointwise-idempotent maps are idempotent on lists. -/
theorem map_asciiLower_idem (l : List Char) :
    (l.map asciiLower).map asciiLower = l.map asciiLower := by
  induction l with
  | nil => simp
  | cons c cs ih => simp [asciiLower_idem, ih]

/-- The output of the substitution pass never holds two adjacent
separators, whatever non-separator sentinel or in-run flag the scan starts
from. -/
theorem noDoubleSepAux_subAux (l : List Char) :
    ∀ b p, (sepB p = false ∨ b = true) →
      noDoubleSepAux p (subAux b l) = true := by
  induction l with
  | nil => intro b p _; simp [noDoubleSepAux, subAux]
  | cons c cs ih =>
      intro b p hp
      cases h : isAlnumChar c with
      | true =>
          have hc := sepB_of_alnum c h
          simp only [subAux, h, if_true, noDoubleSepAux, hc]
          simp only [Bool.and_false, Bool.not_false, Bool.true_and]
          exact ih false c (Or.inl hc)
      | false =>
          cases b with
          | true =>
              simp only [subAux, h, if_false, Bool.false_eq_true]
              simp only [if_true]
              exact ih true p (Or.inr rfl)
          | false =>
              rcases hp with hp | hp
              · simp only [subAux, h, Bool.false_eq_true, if_false, if_true,
                  noDoubleSepAux, hp]
                simp only [Bool.false_and, Bool.not_false, Bool.true_and]
                exact ih true '_' (Or.inr rfl)
              · exact absurd hp (by simp)

/-- The double-separator scan only depends on the separator status of the
sentinel and is unaffected by lowering the list. -/
theorem noDoubleSepAux_map_asciiLower (l : List Char) :
    ∀ p q, sepB p = sepB q →
      noDoubleSepAux p (l.map asciiLower) = noDoubleSepAux q l := by
  induction l with
  | nil => intro p q _; simp [noDoubleSepAux]
  | cons c cs ih =>
      intro p q hpq
      simp only [List.map_cons, noDoubleSepAux, hpq, sepB_asciiLower]
      rw [ih (asciiLower c) c (sepB_asciiLower c)]

/-- C6: device-identity derivation behaves as specified.  It maps the
example hostname Living Room!!Pi to living_room_pi; it is idempotent (it is
a pure function, hence deterministic); every character of the output is
fixed by lowering (the result is lower-cased); and no two adjacent output
characters are separators (each non-alphanumeric run collapsed to one
underscore). -/
theorem C6_theorem :
    generate_entity_id "Living Room!!Pi" = "living_room_pi" ∧
    (∀ x : String, generate_entity_id (generate_entity_id x) = generate_entity_id x) ∧
    (∀ x : String, (generate_entity_id x).data.map asciiLower = (generate_entity_id x).data) ∧
    (∀ x : String, noDoubleSep (generate_entity_id x).data = true) := by
  refine ⟨by decide, fun x => ?_, fun x => ?_, fun x => ?_⟩
  · show (⟨(subAux false (⟨(subAux false x.data).map asciiLower⟩ : String).data).map
      asciiLower⟩ : String) = ⟨(subAux false x.data).map asciiLower⟩
    have : (⟨(subAux false x.data).map asciiLower⟩ : String).data =
        (subAux false x.data).map asciiLower := rfl
    rw [this, subAux_map_asciiLower _ false, subAux_idem _ false,
      map_asciiLower_idem]
  · show ((subAux false x.data).map asciiLower).map asciiLower =
      (subAux false x.data).map asciiLower
    exact map_asciiLower_idem _
  · show noDoubleSepAux 'a' ((subAux false x.data).map asciiLower) = true
    rw [noDoubleSepAux_map_asciiLower _ 'a' 'a' rfl]
    exact noDoubleSepAux_subAux _ false 'a' (Or.inl (by decide))

/-! ### Claims C7, C8, C9, C10 -/

/-- C7 counterexample: a connection error raised by the request is not
caught by update_states (its except clause names only TimeoutError), so the
exception escapes to the caller, and the state is not set to the sentinel
unavailable: async_update merely logs and leaves the attributes at their
prior value. -/
theorem C7_counterexample :
    update_states initAttrs (.raise .connectionError) = .error .connectionError ∧
    (async_update initAttrs (.raise .connectionError)).state = none := by
  exact ⟨rfl, rfl⟩

/-- C7 amended: only the builtin TimeoutError is caught by update_states,
and only then is the playback status set to unavailable; every other
transport exception propagates out of update_states and is swallowed one
level up by async_update, which leaves all attributes unchanged. -/
theorem C7_amended (d : PlayerAttrs) :
    update_states d (.raise .timeoutError) = .ok { d with state := some "unavailable" } ∧
    update_states d (.raise .connectionError) = .error .connectionError ∧
    update_states d (.raise .requestException) = .error .requestException ∧
    async_update d (.raise .connectionError) = d ∧
    async_update d (.raise .requestException) = d ∧
    async_update d (.raise .timeoutError) = { d with state := some "unavailable" } := by
  refine ⟨rfl, rfl, rfl, ?_, ?_, ?_⟩ <;> rfl

/-- C8 counterexample: set_volume_level performs no validation, so the
out-of-range volume -1/10 is dispatched to the device unchanged. -/
theorem C8_counterexample :
    dispatchedVolume (set_volume_level (-(1 / 10) : ℚ)) = some (-(1 / 10) : ℚ) ∧
    (-(1 / 10) : ℚ) < 0 := by
  constructor
  · rfl
  · norm_num

/-- C8 amended: set_volume_level neither clamps nor validates its argument;
for every volume value v, in range or not, it dispatches the set_volume
command carrying v itself. -/
theorem C8_amended (v : ℚ) :
    set_volume_level v = ⟨"set_volume", [("volume", CmdVal.num v)]⟩ ∧
    dispatchedVolume (set_volume_level v) = some v := by
  exact ⟨rfl, rfl⟩

/-- C9 counterexample: the reconfigure form performs no duplicate-hostname
check.  With two entries for hostA and hostB, reconfiguring the second to
hostA is accepted (the flow aborts with reconfigure_successful) and the
stored entries end up with duplicate hostnames. -/
theorem C9_counterexample :
    async_step_reconfigure [⟨"1", "hostA"⟩, ⟨"2", "hostB"⟩] "2" (some "hostA") =
      (.abortReason "reconfigure_successful", [⟨"1", "hostA"⟩, ⟨"2", "hostA"⟩]) := by
  decide

/-- C9 amended: the first-run setup form does reject a hostname that
duplicates an existing entry (the abort-entries-match guard fires, the broad
except converts it into re-showing the form, and no entry is created), but
the reconfigure form accepts any submitted hostname without a duplicate
check and always ends with reconfigure_successful. -/
theorem C9_amended :
    (∀ (entries : List ConfigEntry) (h : String),
      entries.any (fun e => e.hostname == h) = true →
      async_step_user entries (some h) = .showForm "user" "raspberrypi") ∧
    (∀ (entries : List ConfigEntry) (eid h : String),
      (async_step_reconfigure entries eid (some h)).1 =
        .abortReason "reconfigure_successful") := by
  constructor
  · intro entries h hdup
    simp [async_step_user, hdup]
  · intro entries eid h
    rfl

/-- C9 witness: the amended theorem applied to a concrete duplicate
submission on each form. -/
theorem C9_witness :
    async_step_user [⟨"1", "pi"⟩] (some "pi") = .showForm "user" "raspberrypi" ∧
    (async_step_reconfigure [⟨"1", "pi"⟩] "1" (some "pi")).1 =
      .abortReason "reconfigure_successful" := by
  exact ⟨C9_amended.1 [⟨"1", "pi"⟩] "pi" (by decide), C9_amended.2 [⟨"1", "pi"⟩] "1" "pi"⟩

/-- C10: mute_volume ignores its boolean argument; muting and unmuting
dispatch the identical volume_mute command with an empty argument mapping. -/
theorem C10_theorem :
    (∀ m₁ m₂ : Bool, mute_volume m₁ = mute_volume m₂) ∧
    (∀ m : Bool, mute_volume m = ⟨"volume_mute", []⟩) := by
  exact ⟨fun _ _ => rfl, fun _ => rfl⟩

end PiAssistant
